import Mathlib

/-!
Verification of the go-formist repository: a shallow embedding of its form
model, validation engine, schema projector and registry, with theorems
checking the natural-language specification against the code.

Sources embedded: types/types.go, form/utils.go (form package),
router/router.go (router package), the schema package, and formist.go.
Go dynamic values (interface values) are modelled by the inductive GoValue;
Go maps with string keys are modelled by association lists with
replace-on-insert semantics; Go errors are modelled structurally by the
inductive VErr, one constructor per distinct error construction site.
-/

set_option autoImplicit false

namespace Formist

/-- FieldType mirrors the closed enumeration of field types in types/types.go. -/
inductive FieldType where
  | text | email | password | number | textarea | select | radio | checkbox
  | date | time | file | hidden | table
deriving DecidableEq

/-- SelectOption mirrors types.SelectOption. -/
structure SelectOption where
  value : String
  label : String
  disabled : Bool := false
deriving DecidableEq

/-- TableColumn mirrors types.TableColumn. -/
structure TableColumn where
  key : String
  title : String
  type : FieldType
  sortable : Bool := false
  filterable : Bool := false
  width : String := ""
  align : String := ""
  options : List SelectOption := []
  multiple : Bool := false
deriving DecidableEq

/-- TableConfig mirrors types.TableConfig. The OnGet handler is an external
callable collaborator and is not part of the serializable data, so it is
omitted (it is never consulted by the validation or schema code embedded
here). -/
structure TableConfig where
  columns : List TableColumn := []
  pagination : Bool := false
  pageSize : Int := 0
  sortable : Bool := false
  filterable : Bool := false
  selectable : Bool := false
  editable : Bool := false
deriving DecidableEq

/-- GoValue models a Go interface value as it occurs in this repository:
null, booleans, the integer kinds distinguished by the type switches in
toFloat64/toInt, float64 and float32 (carried exactly as rationals, which is
exact for every value the repository constructs or tests), strings, generic
lists, string slices, string-keyed maps, and slices of TableColumn (stored
into UI options by generateTableUIOptions). -/
inductive GoValue where
  | VNull : GoValue
  | VBool : Bool → GoValue
  | VInt : Int → GoValue
  | VInt32 : Int → GoValue
  | VInt64 : Int → GoValue
  | VFloat32 : Rat → GoValue
  | VFloat : Rat → GoValue
  | VString : String → GoValue
  | VList : List GoValue → GoValue
  | VStrings : List String → GoValue
  | VMap : List (String × GoValue) → GoValue
  | VColumns : List TableColumn → GoValue

open GoValue

/-- GoMap models a Go map with string keys, as an association list whose
insert replaces an existing binding in place (Go map assignment semantics). -/
abbrev GoMap := List (String × GoValue)

/-- mapSet models the Go map assignment m[k] = v: replace the binding if the
key is present, append it otherwise. -/
def mapSet {α : Type} (m : List (String × α)) (k : String) (v : α) : List (String × α) :=
  match m with
  | [] => [(k, v)]
  | (k2, v2) :: rest => if k2 = k then (k, v) :: rest else (k2, v2) :: mapSet rest k v

/-- mapGet models the Go map read m[k]. -/
def mapGet {α : Type} (m : List (String × α)) (k : String) : Option α :=
  match m with
  | [] => none
  | (k2, v2) :: rest => if k2 = k then some v2 else mapGet rest k

/-- mapKeys lists the keys of a modelled Go map. -/
def mapKeys {α : Type} (m : List (String × α)) : List String :=
  m.map Prod.fst

/-- goTypeName renders the Go dynamic type of a value, as the %T verb used by
the coercion error messages in form/utils.go and router/router.go would. -/
def goTypeName : GoValue → String
  | VNull => "<nil>"
  | VBool _ => "bool"
  | VInt _ => "int"
  | VInt32 _ => "int32"
  | VInt64 _ => "int64"
  | VFloat32 _ => "float32"
  | VFloat _ => "float64"
  | VString _ => "string"
  | VList _ => "[]interface \x7b\x7d"
  | VStrings _ => "[]string"
  | VMap _ => "map[string]interface \x7b\x7d"
  | VColumns _ => "[]types.TableColumn"

/-- listIsPrefix decides whether the first character list is a prefix of the
second. -/
def listIsPrefix : List Char → List Char → Bool
  | [], _ => true
  | _ :: _, [] => false
  | a :: as, b :: bs => a = b && listIsPrefix as bs

/-- listContainsSub decides substring containment on character lists. -/
def listContainsSub : List Char → List Char → Bool
  | s, sub =>
    if listIsPrefix sub s then true
    else match s with
      | [] => false
      | _ :: rest => listContainsSub rest sub

/-- strContains models Go strings.Contains. -/
def strContains (s sub : String) : Bool :=
  listContainsSub s.toList sub.toList

/-- strToLower models Go strings.ToLower (ASCII case mapping, which covers
every name this repository lower-cases). -/
def strToLower (s : String) : String :=
  String.mk (s.toList.map Char.toLower)

/-- goIsSpace models unicode.IsSpace on the Latin-1 range, which is the
whitespace alphabet relevant to the trimmed strings in this repository. -/
def goIsSpace (c : Char) : Bool :=
  c = ' ' || c = '\t' || c = '\n' || c = '\x0b' || c = '\x0c' || c = '\r' ||
  c = '\u0085' || c = '\u00A0'

/-- strTrimSpace models Go strings.TrimSpace. -/
def strTrimSpace (s : String) : String :=
  String.mk (((s.toList.dropWhile goIsSpace).reverse.dropWhile goIsSpace).reverse)

/-- goStrLen models Go len(str): the UTF-8 byte length of the string. -/
def goStrLen (s : String) : Int :=
  (s.utf8ByteSize : Int)

/-- Regex is the abstract syntax of the regular-expression fragment used by
this repository (the email rule of form/utils.go and user-supplied rule
patterns): character literals, the dot metacharacter, character classes
given as unions of ranges (possibly negated), concatenation, alternation
and Kleene star. Counted repetition and the plus/question operators are
expanded into this core during compilation. -/
inductive Regex where
  | void : Regex
  | eps : Regex
  | chr : Char → Regex
  | dot : Regex
  | cls : Bool → List (Char × Char) → Regex
  | cat : Regex → Regex → Regex
  | alt : Regex → Regex → Regex
  | star : Regex → Regex

/-- clsMem decides membership of a character in a (possibly negated)
character class. -/
def clsMem (neg : Bool) (items : List (Char × Char)) (c : Char) : Bool :=
  let hit := items.any (fun p => p.1 ≤ c && c ≤ p.2)
  if neg then !hit else hit

/-- nullable decides whether a regex accepts the empty string. -/
def nullable : Regex → Bool
  | .void => false
  | .eps => true
  | .chr _ => false
  | .dot => false
  | .cls _ _ => false
  | .cat a b => nullable a && nullable b
  | .alt a b => nullable a || nullable b
  | .star _ => true

/-- deriv is the Brzozowski derivative of a regex by a character; the dot
metacharacter matches any character except newline, as in Go regexp without
the s flag. -/
def rderiv : Regex → Char → Regex
  | .void, _ => .void
  | .eps, _ => .void
  | .chr c, x => if x = c then .eps else .void
  | .dot, x => if x = '\n' then .void else .eps
  | .cls n items, x => if clsMem n items x then .eps else .void
  | .cat a b, x =>
      if nullable a then .alt (.cat (rderiv a x) b) (rderiv b x)
      else .cat (rderiv a x) b
  | .alt a b, x => .alt (rderiv a x) (rderiv b x)
  | .star a, x => .cat (rderiv a x) (.star a)

/-- regexAccepts decides whole-string acceptance by iterated derivatives. -/
def regexAccepts (r : Regex) (s : String) : Bool :=
  nullable (s.toList.foldl rderiv r)

/-- allChar is a class matching every character; used to wrap an unanchored
pattern, since Go MatchString reports a match anywhere in the string. -/
def allChar : Regex := .cls true []

/-- repN expands an exact repetition count into concatenation. -/
def repN (r : Regex) : Nat → Regex
  | 0 => .eps
  | n + 1 => .cat r (repN r n)

/-- digitsToNat reads a decimal digit run. -/
def digitsToNat (ds : List Char) : Nat :=
  ds.foldl (fun a c => a * 10 + (c.toNat - 48)) 0

/-- escClassRanges gives the range expansion of the Perl class escapes this
embedding supports inside and outside character classes. -/
def escClassRanges : Char → Option (List (Char × Char))
  | 'd' => some [('0', '9')]
  | 'w' => some [('a', 'z'), ('A', 'Z'), ('0', '9'), ('_', '_')]
  | 's' => some [('\t', '\n'), ('\x0c', '\r'), (' ', ' ')]
  | _ => none

/-- escLiteral resolves an escaped character to the literal it denotes;
escapes of letters or digits that are not recognised control escapes are
rejected, mirroring Go regexp which errors on unknown escapes. -/
def escLiteral : Char → Option Char
  | 'n' => some '\n'
  | 't' => some '\t'
  | 'r' => some '\r'
  | 'f' => some '\x0c'
  | 'v' => some '\x0b'
  | 'a' => some '\x07'
  | c => if c.isAlphanum then none else some c

/-- parseClassChar reads one literal character inside a character class
(plain or escaped). -/
def parseClassChar : List Char → Option (Char × List Char)
  | '\\' :: e :: rest =>
      match escClassRanges e with
      | some _ => none
      | none => (escLiteral e).map (fun c => (c, rest))
  | ']' :: _ => none
  | '-' :: _ => none
  | c :: rest => some (c, rest)
  | [] => none

mutual

/-- parseClassItems reads the body of a character class up to the closing
bracket, as a list of ranges (a lone character is a degenerate range). -/
def parseClassItems : Nat → List Char → List (Char × Char) →
    Option (List (Char × Char) × List Char)
  | 0, _, _ => none
  | _ + 1, ']' :: rest, acc => if acc.isEmpty then none else some (acc, rest)
  | fuel + 1, '\\' :: e :: rest, acc =>
      (match escClassRanges e with
       | some rs => parseClassItems fuel rest (rs ++ acc)
       | none =>
          match escLiteral e with
          | none => none
          | some c => parseClassAfterChar fuel c rest acc)
  | fuel + 1, '-' :: rest, acc =>
      -- a dash that does not continue a range is a literal class member
      parseClassItems fuel rest (('-', '-') :: acc)
  | fuel + 1, c :: rest, acc => parseClassAfterChar fuel c rest acc
  | _ + 1, [], _ => none

/-- parseClassAfterChar continues a class item whose first character has been
read, recognising a trailing range. -/
def parseClassAfterChar : Nat → Char → List Char → List (Char × Char) →
    Option (List (Char × Char) × List Char)
  | 0, _, _, _ => none
  | fuel + 1, c, '-' :: ']' :: rest, acc =>
      parseClassItems fuel (']' :: rest) ((c, c) :: ('-', '-') :: acc)
  | fuel + 1, c, '-' :: rest2, acc =>
      (match parseClassChar rest2 with
       | none => none
       | some (c2, rest3) =>
          if c ≤ c2 then parseClassItems fuel rest3 ((c, c2) :: acc) else none)
  | fuel + 1, c, cs, acc => parseClassItems fuel cs ((c, c) :: acc)

end

/-- parseAtom reads a single regex atom: an escape, a character class, the
dot, or a literal character. Constructs outside the supported fragment
(groups, alternation, stray metacharacters) are compile errors. -/
def parseAtom (fuel : Nat) : List Char → Option (Regex × List Char)
  | '\\' :: e :: rest =>
      (match escClassRanges e with
       | some rs => some (.cls false rs, rest)
       | none =>
          match e with
          | 'D' => some (Regex.cls true [('0', '9')], rest)
          | 'W' => some (Regex.cls true [('a', 'z'), ('A', 'Z'), ('0', '9'), ('_', '_')], rest)
          | 'S' => some (Regex.cls true [('\t', '\n'), ('\x0c', '\r'), (' ', ' ')], rest)
          | _ => (escLiteral e).map (fun c => (Regex.chr c, rest)))
  | '[' :: '^' :: rest =>
      (parseClassItems fuel rest []).map (fun p => (Regex.cls true p.1, p.2))
  | '[' :: rest =>
      (parseClassItems fuel rest []).map (fun p => (Regex.cls false p.1, p.2))
  | '.' :: rest => some (.dot, rest)
  | c :: rest =>
      if c = '(' || c = ')' || c = '|' || c = '*' || c = '+' || c = '?' ||
         c = '\x7b' || c = '\x7d' || c = '^' || c = '$' || c = '\\' then none
      else some (.chr c, rest)
  | [] => none

/-- parsePostfix applies an optional repetition operator to a parsed atom,
expanding counted repetition into the core syntax. -/
def parsePostfix (r : Regex) : List Char → Option (Regex × List Char)
  | '*' :: rest => some (.star r, rest)
  | '+' :: rest => some (.cat r (.star r), rest)
  | '?' :: rest => some (.alt .eps r, rest)
  | '\x7b' :: rest =>
      (let ds := rest.takeWhile Char.isDigit
       let rest2 := rest.dropWhile Char.isDigit
       if ds.isEmpty then none else
       let m := digitsToNat ds
       match rest2 with
       | '\x7d' :: rest3 => some (repN r m, rest3)
       | ',' :: '\x7d' :: rest3 => some (.cat (repN r m) (.star r), rest3)
       | ',' :: rest3 =>
           let ds2 := rest3.takeWhile Char.isDigit
           let rest4 := rest3.dropWhile Char.isDigit
           if ds2.isEmpty then none else
           let n := digitsToNat ds2
           match rest4 with
           | '\x7d' :: rest5 =>
               if m ≤ n then some (.cat (repN r m) (repN (.alt .eps r) (n - m)), rest5)
               else none
           | _ => none
       | _ => none)
  | cs => some (r, cs)

/-- parseSeq parses a concatenation of atoms with repetition operators,
recognising a dollar anchor only in final position. -/
def parseSeq : Nat → List Char → Option (Regex × Bool)
  | _, [] => some (.eps, false)
  | 0, _ => none
  | _ + 1, ['$'] => some (.eps, true)
  | fuel + 1, cs =>
      match parseAtom (cs.length + 1) cs with
      | none => none
      | some (r, rest) =>
          match parsePostfix r rest with
          | none => none
          | some (r2, rest2) =>
              match parseSeq fuel rest2 with
              | none => none
              | some (tail, ea) => some (.cat r2 tail, ea)

/-- regexpCompile models Go regexp.Compile for the regular-expression
dialect the repository's validation rules use: literals, escapes, character
classes, the dot, star/plus/question and counted repetition, with caret and
dollar anchors at the pattern ends. A pattern outside this fragment is
reported as a compile error, mirroring the error return of regexp.Compile.
The compiled form is wrapped so that whole-string acceptance of the result
coincides with Go MatchString, which searches for a match anywhere. -/
def regexpCompile (s : String) : Option Regex :=
  let cs := s.toList
  let sa := match cs with | '^' :: _ => true | _ => false
  let cs2 := if sa then cs.drop 1 else cs
  match parseSeq (cs2.length + 1) cs2 with
  | none => none
  | some (body, ea) =>
      some (.cat (if sa then .eps else .star allChar)
        (.cat body (if ea then .eps else .star allChar)))

/-- emailPattern is the email regular expression literal compiled by
validateEmail in form/utils.go. -/
def emailPattern : String :=
  "^[a-zA-Z0-9._%+-]+@[a-zA-Z0-9.-]+\\.[a-zA-Z]\x7b2,\x7d$"

/-- emailRegex is the compiled form of emailPattern (regexp.MustCompile in
form/utils.go; compilation succeeds, see regexpCompile_emailPattern_isSome). -/
def emailRegex : Regex :=
  (regexpCompile emailPattern).getD .void

/-- ValidationRule mirrors types.ValidationRule: a kind string, an optional
parameter (a Go interface value, VNull when absent) and an optional custom
message. -/
structure ValidationRule where
  type : String
  value : GoValue := .VNull
  message : String := ""

/-- Field mirrors types.Field. -/
structure Field where
  name : String := ""
  type : FieldType := .text
  label : String := ""
  required : Bool := false
  placeholder : String := ""
  defaultValue : GoValue := .VNull
  options : List SelectOption := []
  multiple : Bool := false
  validation : List ValidationRule := []
  group : String := ""
  description : String := ""
  disabled : Bool := false
  config : List (String × GoValue) := []
  tableConfig : Option TableConfig := none

/-- FieldGroup mirrors types.FieldGroup. -/
structure FieldGroup where
  name : String := ""
  title : String := ""
  description : String := ""
  fields : List String := []

/-- Form mirrors types.Form. The OnPost/OnGet members are external callable
collaborators excluded from the serializable data model; none of the
embedded operations consult them. -/
structure Form where
  name : String := ""
  title : String := ""
  description : String := ""
  fields : List Field := []
  groups : List FieldGroup := []

/-- Page mirrors types.Page (the optional Handler callable is omitted). -/
structure Page where
  name : String := ""
  title : String := ""
  content : String := ""

/-- VErr models the Go error values produced by the validation and coercion
code, one constructor per construction site, carrying the data interpolated
into the message. The corresponding message texts:
requiredField = "поле обязательно для заполнения";
notAString = "значение должно быть строкой";
patternNotAString = "паттерн должен быть строкой";
malformedPattern = "некорректное регулярное выражение: ...";
custom m = errors.New(m) for a rule with a non-empty Message;
emailDefault = "некорректный email адрес";
minDefault b = "значение должно быть не менее b";
maxDefault b = "значение должно быть не более b";
minLengthDefault b = "длина должна быть не менее b символов";
maxLengthDefault b = "длина должна быть не более b символов";
patternDefault = "значение не соответствует требуемому формату";
notANumber t = "не удается конвертировать t в число";
notAnInt t = "не удается конвертировать t в целое число";
parseFloatError s / parseIntError s = the strconv error for input s. -/
inductive VErr where
  | requiredField : VErr
  | notAString : VErr
  | patternNotAString : VErr
  | malformedPattern : String → VErr
  | custom : String → VErr
  | emailDefault : VErr
  | minDefault : Rat → VErr
  | maxDefault : Rat → VErr
  | minLengthDefault : Int → VErr
  | maxLengthDefault : Int → VErr
  | patternDefault : VErr
  | notANumber : String → VErr
  | notAnInt : String → VErr
  | parseFloatError : String → VErr
  | parseIntError : String → VErr
deriving DecidableEq

/-- parseGoFloat models strconv.ParseFloat for decimal notation (optional
sign, digits with an optional fractional part, optional decimal exponent),
exactly as a rational; this covers every numeric string the repository's
coercions can meet in its tests and examples. Other ParseFloat inputs are
reported as parse errors. -/
def parseGoFloat (s : String) : Option Rat :=
  let cs := s.toList
  let (neg, cs1) := match cs with
    | '-' :: rest => (true, rest)
    | '+' :: rest => (false, rest)
    | _ => (false, cs)
  let intDigits := cs1.takeWhile Char.isDigit
  let cs2 := cs1.dropWhile Char.isDigit
  let (fracDigits, cs3) := match cs2 with
    | '.' :: rest => (rest.takeWhile Char.isDigit, rest.dropWhile Char.isDigit)
    | _ => ([], cs2)
  if intDigits.isEmpty && fracDigits.isEmpty then none else
  let mantissa : Rat :=
    ((digitsToNat (intDigits ++ fracDigits) : Int) : Rat) / ((10 : Rat) ^ fracDigits.length)
  let signed := if neg then -mantissa else mantissa
  match cs3 with
  | [] => some signed
  | e :: rest =>
      if e = 'e' || e = 'E' then
        let (eneg, rest1) := match rest with
          | '-' :: r => (true, r)
          | '+' :: r => (false, r)
          | _ => (false, rest)
        let eds := rest1.takeWhile Char.isDigit
        let rest2 := rest1.dropWhile Char.isDigit
        if eds.isEmpty || !rest2.isEmpty then none else
        let ex := digitsToNat eds
        some (if eneg then signed / ((10 : Rat) ^ ex) else signed * ((10 : Rat) ^ ex))
      else none

/-- parseGoInt models strconv.Atoi on in-range inputs: an optional sign
followed by decimal digits (the repository never supplies out-of-range
bounds, so overflow is not modelled). -/
def parseGoInt (s : String) : Option Int :=
  let cs := s.toList
  let (neg, cs1) := match cs with
    | '-' :: rest => (true, rest)
    | '+' :: rest => (false, rest)
    | _ => (false, cs)
  if cs1.isEmpty || !(cs1.all Char.isDigit) then none
  else
    let n : Int := (digitsToNat cs1 : Int)
    some (if neg then -n else n)

/-- ratTrunc models the Go conversion int(f) of a float64: truncation toward
zero. -/
def ratTrunc (q : Rat) : Int :=
  q.num.tdiv (q.den : Int)

/-- toFloat64 embeds the textually identical toFloat64 functions of
form/utils.go and router/router.go. -/
def toFloat64 : GoValue → Except VErr Rat
  | .VFloat q => .ok q
  | .VFloat32 q => .ok q
  | .VInt n => .ok (n : Rat)
  | .VInt32 n => .ok (n : Rat)
  | .VInt64 n => .ok (n : Rat)
  | .VString s =>
      match parseGoFloat s with
      | some q => .ok q
      | none => .error (.parseFloatError s)
  | v => .error (.notANumber (goTypeName v))

/-- toInt embeds the textually identical toInt functions of form/utils.go
and router/router.go. -/
def toInt : GoValue → Except VErr Int
  | .VInt n => .ok n
  | .VInt32 n => .ok n
  | .VInt64 n => .ok n
  | .VFloat q => .ok (ratTrunc q)
  | .VFloat32 q => .ok (ratTrunc q)
  | .VString s =>
      match parseGoInt s with
      | some n => .ok n
      | none => .error (.parseIntError s)
  | v => .error (.notAnInt (goTypeName v))

/-- isEmpty embeds the textually identical isEmpty functions of
form/utils.go and router/router.go: nil, all-whitespace strings and empty
generic slices are empty; every other value is not. -/
def isEmpty : GoValue → Bool
  | .VNull => true
  | .VString s => strTrimSpace s = ""
  | .VList xs => xs.isEmpty
  | _ => false

namespace FormPkg

/-- validateEmail embeds validateEmail of form/utils.go: the value must be a
string matching the email regular expression. -/
def validateEmail (value : GoValue) (message : String) : Except VErr Unit :=
  match value with
  | .VString str =>
      if regexAccepts emailRegex str then .ok ()
      else if message ≠ "" then .error (.custom message)
      else .error .emailDefault
  | _ => .error .notAString

/-- validateMin embeds validateMin of form/utils.go. -/
def validateMin (value minValue : GoValue) (message : String) : Except VErr Unit :=
  match toFloat64 value with
  | .error e => .error e
  | .ok num =>
      match toFloat64 minValue with
      | .error e => .error e
      | .ok m =>
          if num < m then
            if message ≠ "" then .error (.custom message) else .error (.minDefault m)
          else .ok ()

/-- validateMax embeds validateMax of form/utils.go. -/
def validateMax (value maxValue : GoValue) (message : String) : Except VErr Unit :=
  match toFloat64 value with
  | .error e => .error e
  | .ok num =>
      match toFloat64 maxValue with
      | .error e => .error e
      | .ok m =>
          if num > m then
            if message ≠ "" then .error (.custom message) else .error (.maxDefault m)
          else .ok ()

/-- validateMinLength embeds validateMinLength of form/utils.go. -/
def validateMinLength (value minLength : GoValue) (message : String) : Except VErr Unit :=
  match value with
  | .VString str =>
      (match toInt minLength with
       | .error e => .error e
       | .ok m =>
          if goStrLen str < m then
            if message ≠ "" then .error (.custom message) else .error (.minLengthDefault m)
          else .ok ())
  | _ => .error .notAString

/-- validateMaxLength embeds validateMaxLength of form/utils.go. -/
def validateMaxLength (value maxLength : GoValue) (message : String) : Except VErr Unit :=
  match value with
  | .VString str =>
      (match toInt maxLength with
       | .error e => .error e
       | .ok m =>
          if goStrLen str > m then
            if message ≠ "" then .error (.custom message) else .error (.maxLengthDefault m)
          else .ok ())
  | _ => .error .notAString

/-- validatePattern embeds validatePattern of form/utils.go: the value and
the rule parameter must be strings, the parameter must compile as a regular
expression, and the value must match it. -/
def validatePattern (value patternValue : GoValue) (message : String) : Except VErr Unit :=
  match value with
  | .VString str =>
      (match patternValue with
       | .VString patternStr =>
          (match regexpCompile patternStr with
           | none => .error (.malformedPattern patternStr)
           | some regex =>
              if regexAccepts regex str then .ok ()
              else if message ≠ "" then .error (.custom message)
              else .error .patternDefault)
       | _ => .error .patternNotAString)
  | _ => .error .notAString

/-- validateRule embeds validateRule of form/utils.go: dispatch on the rule
kind, with unknown kinds accepted. -/
def validateRule (value : GoValue) (rule : ValidationRule) : Except VErr Unit :=
  match rule.type with
  | "email" => validateEmail value rule.message
  | "min" => validateMin value rule.value rule.message
  | "max" => validateMax value rule.value rule.message
  | "minLength" => validateMinLength value rule.value rule.message
  | "maxLength" => validateMaxLength value rule.value rule.message
  | "pattern" => validatePattern value rule.value rule.message
  | _ => .ok ()

/-- applyRules embeds the rule loop of ValidateField in form/utils.go: the
first failing rule's error is returned. -/
def applyRules (value : GoValue) : List ValidationRule → Except VErr Unit
  | [] => .ok ()
  | r :: rs =>
      match validateRule value r with
      | .error e => .error e
      | .ok _ => applyRules value rs

/-- ValidateField embeds ValidateField of form/utils.go. -/
def ValidateField (field : Field) (value : GoValue) : Except VErr Unit :=
  if field.required && isEmpty value then .error .requiredField
  else if isEmpty value then .ok ()
  else applyRules value field.validation

end FormPkg

namespace RouterPkg

/-- validateEmail embeds the router package validateEmail of
router/router.go: the value must be a string containing both an at sign and
a dot. -/
def validateEmail (value : GoValue) (message : String) : Except VErr Unit :=
  match value with
  | .VString str =>
      if !strContains str "@" || !strContains str "." then
        if message ≠ "" then .error (.custom message) else .error .emailDefault
      else .ok ()
  | _ => .error .notAString

/-- validateMin embeds the router package validateMin of router/router.go. -/
def validateMin (value minValue : GoValue) (message : String) : Except VErr Unit :=
  match toFloat64 value with
  | .error e => .error e
  | .ok num =>
      match toFloat64 minValue with
      | .error e => .error e
      | .ok m =>
          if num < m then
            if message ≠ "" then .error (.custom message) else .error (.minDefault m)
          else .ok ()

/-- validateMax embeds the router package validateMax of router/router.go. -/
def validateMax (value maxValue : GoValue) (message : String) : Except VErr Unit :=
  match toFloat64 value with
  | .error e => .error e
  | .ok num =>
      match toFloat64 maxValue with
      | .error e => .error e
      | .ok m =>
          if num > m then
            if message ≠ "" then .error (.custom message) else .error (.maxDefault m)
          else .ok ()

/-- validateMinLength embeds the router package validateMinLength of
router/router.go. -/
def validateMinLength (value minLength : GoValue) (message : String) : Except VErr Unit :=
  match value with
  | .VString str =>
      (match toInt minLength with
       | .error e => .error e
       | .ok m =>
          if goStrLen str < m then
            if message ≠ "" then .error (.custom message) else .error (.minLengthDefault m)
          else .ok ())
  | _ => .error .notAString

/-- validateMaxLength embeds the router package validateMaxLength of
router/router.go. -/
def validateMaxLength (value maxLength : GoValue) (message : String) : Except VErr Unit :=
  match value with
  | .VString str =>
      (match toInt maxLength with
       | .error e => .error e
       | .ok m =>
          if goStrLen str > m then
            if message ≠ "" then .error (.custom message) else .error (.maxLengthDefault m)
          else .ok ())
  | _ => .error .notAString

/-- validateRule embeds the router package validateRule of router/router.go:
dispatch on the rule kind. Note the switch has cases for email, min, max,
minLength and maxLength only; every other kind, including pattern, falls to
the default and is accepted. -/
def validateRule (value : GoValue) (rule : ValidationRule) : Except VErr Unit :=
  match rule.type with
  | "email" => validateEmail value rule.message
  | "min" => validateMin value rule.value rule.message
  | "max" => validateMax value rule.value rule.message
  | "minLength" => validateMinLength value rule.value rule.message
  | "maxLength" => validateMaxLength value rule.value rule.message
  | _ => .ok ()

end RouterPkg

/-- GoKind models the reflect.Kind of a struct member as distinguished by
getFieldType in form/utils.go. -/
inductive GoKind where
  | kBool | kInt | kInt8 | kInt16 | kInt32 | kInt64
  | kUint | kUint8 | kUint16 | kUint32 | kUint64
  | kFloat32 | kFloat64 | kString | kOther
deriving DecidableEq

/-- StructField models a reflect.StructField as consumed by the mapper: the
member name, its struct tags as key/value pairs, its kind, and whether it is
exported. -/
structure StructField where
  name : String
  tags : List (String × String) := []
  kind : GoKind := .kString
  exported : Bool := true

/-- tagGet models reflect.StructTag.Get: the tag value, or the empty string
when the tag is absent. -/
def tagGet (tags : List (String × String)) (k : String) : String :=
  match mapGet tags k with
  | some v => v
  | none => ""

namespace FormPkg

/-- getFieldName embeds getFieldName of form/utils.go. -/
def getFieldName (field : StructField) : String :=
  if tagGet field.tags "form" ≠ "" then tagGet field.tags "form"
  else strToLower field.name

/-- getFieldLabel embeds getFieldLabel of form/utils.go. -/
def getFieldLabel (field : StructField) : String :=
  if tagGet field.tags "label" ≠ "" then tagGet field.tags "label"
  else field.name

/-- typeTagLookup is the fixed lookup switch of getFieldType for a non-empty
type tag; tag values outside the switch map to none and fall through to the
kind-based inference. -/
def typeTagLookup : String → Option FieldType
  | "email" => some .email
  | "password" => some .password
  | "textarea" => some .textarea
  | "select" => some .select
  | "radio" => some .radio
  | "checkbox" => some .checkbox
  | "date" => some .date
  | "time" => some .time
  | "file" => some .file
  | "hidden" => some .hidden
  | "number" => some .number
  | _ => none

/-- getFieldType embeds getFieldType of form/utils.go: an explicit type tag
takes priority; otherwise the Go kind decides, with a string member promoted
to email or password when its lower-cased name contains that substring. -/
def getFieldType (field : StructField) : FieldType :=
  match (if tagGet field.tags "type" ≠ "" then typeTagLookup (tagGet field.tags "type") else none) with
  | some ft => ft
  | none =>
      match field.kind with
      | .kBool => .checkbox
      | .kInt => .number
      | .kInt8 => .number
      | .kInt16 => .number
      | .kInt32 => .number
      | .kInt64 => .number
      | .kUint => .number
      | .kUint8 => .number
      | .kUint16 => .number
      | .kUint32 => .number
      | .kUint64 => .number
      | .kFloat32 => .number
      | .kFloat64 => .number
      | .kString =>
          if strContains (strToLower field.name) "email" then .email
          else if strContains (strToLower field.name) "password" then .password
          else .text
      | .kOther => .text

/-- getFieldRequired embeds getFieldRequired of form/utils.go. -/
def getFieldRequired (field : StructField) : Bool :=
  tagGet field.tags "required" = "true" || tagGet field.tags "required" = "1"

/-- defaultEmailRule is the default validation rule attached to email fields
by createFieldFromStructField (message "Введите корректный email"). -/
def defaultEmailRule : ValidationRule :=
  { type := "email", value := .VNull, message := "Введите корректный email" }

/-- createFieldFromStructField embeds createFieldFromStructField of
form/utils.go. -/
def createFieldFromStructField (field : StructField) : Field :=
  let formField : Field :=
    { name := getFieldName field
      label := getFieldLabel field
      type := getFieldType field
      required := getFieldRequired field
      validation := [] }
  if formField.type = .email then
    { formField with validation := formField.validation ++ [defaultEmailRule] }
  else formField

/-- FromStruct embeds FromStruct of form/utils.go over the member list of a
struct type: unexported members are skipped, each remaining member is mapped
and appended when its resolved name is non-empty. -/
def FromStruct (name title : String) (structFields : List StructField) : Form :=
  structFields.foldl
    (fun acc sf =>
      if !sf.exported then acc
      else
        let formField := createFieldFromStructField sf
        if formField.name ≠ "" then { acc with fields := acc.fields ++ [formField] }
        else acc)
    { name := name, title := title }

end FormPkg

namespace SchemaPkg

/-- getOptionValues embeds getOptionValues of the schema package. -/
def getOptionValues (options : List SelectOption) : List String :=
  options.map (fun o => o.value)

/-- convertOptionsToEnumOptions embeds convertOptionsToEnumOptions of the
schema package. -/
def convertOptionsToEnumOptions (options : List SelectOption) : List GoMap :=
  options.map (fun o => [("value", GoValue.VString o.value), ("label", GoValue.VString o.label)])

/-- generateTableColumnSchema embeds generateTableColumnSchema of the schema
package. -/
def generateTableColumnSchema : GoMap :=
  [("type", .VString "object"),
   ("properties", .VMap
     [("key", .VMap [("type", GoValue.VString "string")]),
      ("title", .VMap [("type", GoValue.VString "string")]),
      ("type", .VMap [("type", GoValue.VString "string")]),
      ("sortable", .VMap [("type", GoValue.VString "boolean")]),
      ("filterable", .VMap [("type", GoValue.VString "boolean")]),
      ("width", .VMap [("type", GoValue.VString "string")]),
      ("align", .VMap [("type", GoValue.VString "string")])])]

/-- generateTableSchema embeds generateTableSchema of the schema package
(the config argument only gates the call and is not read by the body). -/
def generateTableSchema (_config : TableConfig) : GoMap :=
  [("type", .VString "object"),
   ("title", .VString "Таблица"),
   ("properties", .VMap
     [("columns", .VMap [("type", GoValue.VString "array"), ("items", .VMap generateTableColumnSchema)]),
      ("rows", .VMap [("type", GoValue.VString "array"), ("items", .VMap [("type", GoValue.VString "object")])]),
      ("total", .VMap [("type", GoValue.VString "integer")]),
      ("page", .VMap [("type", GoValue.VString "integer")]),
      ("limit", .VMap [("type", GoValue.VString "integer")])])]

/-- generateTableUIOptions embeds generateTableUIOptions of the schema
package. -/
def generateTableUIOptions (config : TableConfig) : GoMap :=
  [("pagination", .VBool config.pagination),
   ("pageSize", .VInt config.pageSize),
   ("sortable", .VBool config.sortable),
   ("filterable", .VBool config.filterable),
   ("selectable", .VBool config.selectable),
   ("editable", .VBool config.editable),
   ("columns", .VColumns config.columns)]

/-- fieldSchemaBase embeds the part of generateFieldSchema before the
default-value and validation-rule steps: the title/description literal and
the switch on the field type. -/
def fieldSchemaBase (field : Field) : GoMap :=
  let base : GoMap :=
    [("title", .VString field.label), ("description", .VString field.description)]
  match field.type with
  | .text =>
      (let m := mapSet base "type" (.VString "string")
       if field.placeholder ≠ "" then mapSet m "examples" (.VStrings [field.placeholder]) else m)
  | .email => mapSet (mapSet base "type" (.VString "string")) "format" (.VString "email")
  | .password => mapSet (mapSet base "type" (.VString "string")) "format" (.VString "password")
  | .number => mapSet base "type" (.VString "number")
  | .textarea => mapSet base "type" (.VString "string")
  | .date => mapSet (mapSet base "type" (.VString "string")) "format" (.VString "date")
  | .time => mapSet (mapSet base "type" (.VString "string")) "format" (.VString "time")
  | .file => mapSet (mapSet base "type" (.VString "string")) "format" (.VString "data-url")
  | .checkbox => mapSet base "type" (.VString "boolean")
  | .radio =>
      (if field.multiple then
        mapSet (mapSet (mapSet base "type" (.VString "array"))
          "items" (.VMap [("type", GoValue.VString "string"), ("enum", .VStrings (getOptionValues field.options))]))
          "uniqueItems" (.VBool true)
       else
        mapSet (mapSet base "type" (.VString "string")) "enum" (.VStrings (getOptionValues field.options)))
  | .select =>
      (if field.multiple then
        mapSet (mapSet (mapSet base "type" (.VString "array"))
          "items" (.VMap [("type", GoValue.VString "string"), ("enum", .VStrings (getOptionValues field.options))]))
          "uniqueItems" (.VBool true)
       else
        mapSet (mapSet base "type" (.VString "string")) "enum" (.VStrings (getOptionValues field.options)))
  | .table =>
      (match field.tableConfig with
       | some config => generateTableSchema config
       | none => mapSet base "type" (.VString "object"))
  | .hidden => mapSet base "type" (.VString "string")

/-- withDefaultValue embeds the default-value step of generateFieldSchema:
a non-nil DefaultValue is copied to the default keyword. -/
def withDefaultValue (m : GoMap) (field : Field) : GoMap :=
  match field.defaultValue with
  | .VNull => m
  | v => mapSet m "default" v

/-- applyConstraint embeds one iteration of the validation-rule loop of
generateFieldSchema: min/max/minLength/maxLength project only when the rule
parameter is a float64 (the lengths truncated to int), pattern only when it
is a string; every other rule kind or parameter type adds nothing. -/
def applyConstraint (m : GoMap) (rule : ValidationRule) : GoMap :=
  match rule.type with
  | "min" =>
      (match rule.value with
       | .VFloat q => mapSet m "minimum" (.VFloat q)
       | _ => m)
  | "max" =>
      (match rule.value with
       | .VFloat q => mapSet m "maximum" (.VFloat q)
       | _ => m)
  | "minLength" =>
      (match rule.value with
       | .VFloat q => mapSet m "minLength" (.VInt (ratTrunc q))
       | _ => m)
  | "maxLength" =>
      (match rule.value with
       | .VFloat q => mapSet m "maxLength" (.VInt (ratTrunc q))
       | _ => m)
  | "pattern" =>
      (match rule.value with
       | .VString s => mapSet m "pattern" (.VString s)
       | _ => m)
  | _ => m

/-- generateFieldSchema embeds generateFieldSchema of the schema package.
The Go function also returns an error, but every control path returns nil
for it, so the embedding is pure. -/
def generateFieldSchema (field : Field) : GoMap :=
  field.validation.foldl applyConstraint (withDefaultValue (fieldSchemaBase field) field)

/-- JSONSchema mirrors the JSONSchema structure of the schema package. -/
structure JSONSchema where
  schema : String := ""
  type : String := ""
  title : String := ""
  description : String := ""
  properties : GoMap := []
  required : List String := []
  definitions : GoMap := []

/-- buildSchema embeds the field loop of GenerateJSONSchema: hidden fields
are skipped entirely; other fields contribute their field schema to the
properties and, when required, their name to the required list. -/
def buildSchema : List Field → JSONSchema → JSONSchema
  | [], s => s
  | field :: rest, s =>
      if field.type = .hidden then buildSchema rest s
      else
        buildSchema rest
          { s with
            properties := mapSet s.properties field.name (.VMap (generateFieldSchema field))
            required := if field.required then s.required ++ [field.name] else s.required }

/-- GenerateJSONSchema embeds GenerateJSONSchema of the schema package (the
error return is always nil in the source, so the embedding is pure). -/
def GenerateJSONSchema (form : Form) : JSONSchema :=
  buildSchema form.fields
    { schema := "https://json-schema.org/draft/2020-12/schema"
      type := "object"
      title := form.title
      description := form.description }

/-- widgetPart embeds the widget switch of generateFieldUISchema. -/
def widgetPart (field : Field) : GoMap :=
  match field.type with
  | .password => mapSet [] "ui:widget" (.VString "password")
  | .textarea =>
      mapSet (mapSet [] "ui:widget" (.VString "textarea"))
        "ui:options" (.VMap [("rows", GoValue.VInt 4)])
  | .file => mapSet [] "ui:widget" (.VString "file")
  | .checkbox => mapSet [] "ui:widget" (.VString "checkbox")
  | .radio =>
      (let m := mapSet [] "ui:widget" (.VString "radio")
       if !field.options.isEmpty then
        mapSet m "ui:options"
          (.VMap [("enumOptions", GoValue.VList ((convertOptionsToEnumOptions field.options).map GoValue.VMap))])
       else m)
  | .select =>
      (let m := mapSet [] "ui:widget"
        (.VString (if field.multiple then "checkboxes" else "select"))
       if !field.options.isEmpty then
        mapSet m "ui:options"
          (.VMap [("enumOptions", GoValue.VList ((convertOptionsToEnumOptions field.options).map GoValue.VMap))])
       else m)
  | .table =>
      (let m := mapSet [] "ui:widget" (.VString "table")
       match field.tableConfig with
       | some config => mapSet m "ui:options" (.VMap (generateTableUIOptions config))
       | none => m)
  | .hidden => mapSet [] "ui:widget" (.VString "hidden")
  | _ => []

/-- uiPreConfig embeds generateFieldUISchema up to but excluding the Config
merge: the widget switch followed by the placeholder, disabled and group
hints. -/
def uiPreConfig (field : Field) : GoMap :=
  let m := widgetPart field
  let m := if field.placeholder ≠ "" then mapSet m "ui:placeholder" (.VString field.placeholder) else m
  let m := if field.disabled then mapSet m "ui:disabled" (.VBool true) else m
  if field.group ≠ "" then mapSet m "ui:group" (.VString field.group) else m

/-- mergeConfig embeds the Config merge loop: each config entry is assigned
into the existing options map, so a config key overwrites an existing
binding of the same key. -/
def mergeConfig (m : GoMap) (cfg : GoMap) : GoMap :=
  cfg.foldl (fun acc kv => mapSet acc kv.1 kv.2) m

/-- applyConfig embeds the final Config step of generateFieldUISchema: with
a non-empty config, merge into an existing ui:options map, or install the
config as the ui:options map when none exists. -/
def applyConfig (ui : GoMap) (cfg : GoMap) : GoMap :=
  if cfg.isEmpty then ui
  else
    match mapGet ui "ui:options" with
    | some (.VMap m) => mapSet ui "ui:options" (.VMap (mergeConfig m cfg))
    | some _ => ui
    | none => mapSet ui "ui:options" (.VMap cfg)

/-- generateFieldUISchema embeds generateFieldUISchema of the schema
package. -/
def generateFieldUISchema (field : Field) : GoMap :=
  applyConfig (uiPreConfig field) field.config

/-- uiOrderList embeds the field-order loop of GenerateUISchema: the names
of the non-hidden fields in form order. -/
def uiOrderList (form : Form) : List String :=
  (form.fields.filter (fun f => f.type ≠ .hidden)).map (fun f => f.name)

/-- GenerateUISchema embeds GenerateUISchema of the schema package. -/
def GenerateUISchema (form : Form) : GoMap :=
  let ui := mapSet [] "ui:order" (.VStrings (uiOrderList form))
  let ui := form.fields.foldl
    (fun acc field =>
      let fieldUI := generateFieldUISchema field
      if fieldUI.isEmpty then acc else mapSet acc field.name (.VMap fieldUI))
    ui
  if form.groups.isEmpty then ui
  else
    mapSet ui "ui:groups"
      (.VList (form.groups.map (fun g =>
        GoValue.VMap
          [("ui:title", GoValue.VString g.title),
           ("ui:description", GoValue.VString g.description),
           ("ui:fields", GoValue.VStrings g.fields)])))

end SchemaPkg

/-- Router models the registry state of router/router.go: the name-keyed
form and page maps (the HTTP plumbing, middleware and handlers around them
are external collaborators). -/
structure Router where
  forms : List (String × Form) := []
  pages : List (String × Page) := []
  title : String := "Admin Panel"
  authEnabled : Bool := false

/-- RegisterForm embeds router.RegisterForm: map assignment by form name. -/
def Router.RegisterForm (r : Router) (form : Form) : Router :=
  { r with forms := mapSet r.forms form.name form }

/-- RegisterPage embeds router.RegisterPage: map assignment by page name. -/
def Router.RegisterPage (r : Router) (page : Page) : Router :=
  { r with pages := mapSet r.pages page.name page }

/-- handleFormsList embeds the payload computed by router.handleFormsList:
the name-to-title map over the registered forms. -/
def Router.handleFormsList (r : Router) : List (String × String) :=
  r.forms.map (fun p => (p.1, p.2.title))

/-- Route mirrors storage.Route (timestamps omitted; they are written by the
storage collaborator, not by the registration code embedded here). -/
structure Route where
  id : String := ""
  name : String := ""
  path : String := ""
  title : String := ""
  description : String := ""
  icon : String := ""
  type : String := ""

/-- Admin models formist.Admin: the router plus an optional navigation
storage collaborator, represented by its SaveRoute behaviour, which may
succeed or return an error. -/
structure Admin where
  router : Router
  storage : Option (Route → Except String Unit) := none

/-- RegisterForm embeds Admin.RegisterForm of formist.go: register the form
in the router, then best-effort persist a navigation route, discarding any
storage error. -/
def Admin.RegisterForm (a : Admin) (form : Form) : Admin :=
  let r := a.router.RegisterForm form
  match a.storage with
  | none => { a with router := r }
  | some save =>
      let route : Route :=
        { name := form.name, path := "/admin/forms/" ++ form.name
          title := form.title, type := "form" }
      let route := if form.description ≠ "" then { route with description := form.description } else route
      let _ := save route
      { a with router := r }

/-- RegisterPage embeds Admin.RegisterPage of formist.go. -/
def Admin.RegisterPage (a : Admin) (page : Page) : Admin :=
  let r := a.router.RegisterPage page
  match a.storage with
  | none => { a with router := r }
  | some save =>
      let route : Route :=
        { name := page.name, path := "/admin/pages/" ++ page.name
          title := page.title, type := "page" }
      let _ := save route
      { a with router := r }

/-- uiOptionsGet reads one key of the hint options map inside a generated
field UI schema (none when the field has no ui:options map). -/
def uiOptionsGet (ui : GoMap) (k : String) : Option GoValue :=
  match mapGet ui "ui:options" with
  | some (.VMap m) => mapGet m k
  | _ => none

/-- minmaxProjection states, following the specification wording as amended,
how a min or max rule parameter reaches the schema: only a float64 value is
projected, unchanged. -/
def minmaxProjection : GoValue → Option GoValue
  | .VFloat q => some (.VFloat q)
  | _ => none

/-- lengthProjection states how a minLength or maxLength rule parameter
reaches the schema: only a float64 value is projected, truncated to int. -/
def lengthProjection : GoValue → Option GoValue
  | .VFloat q => some (.VInt (ratTrunc q))
  | _ => none

/-- patternProjection states how a pattern rule parameter reaches the
schema: only a string value is projected, unchanged. -/
def patternProjection : GoValue → Option GoValue
  | .VString s => some (.VString s)
  | _ => none

/-- lastProjectedFrom folds a projection over a rule list: each rule of the
selected kind whose parameter projects replaces the accumulator; every other
rule leaves it unchanged. -/
def lastProjectedFrom (rules : List ValidationRule) (kind : String)
    (f : GoValue → Option GoValue) (init : Option GoValue) : Option GoValue :=
  rules.foldl
    (fun acc r =>
      if r.type = kind then
        match f r.value with
        | some g => some g
        | none => acc
      else acc)
    init

/-- lastProjected is the parameter of the last rule of the selected kind
whose parameter projects, if any. -/
def lastProjected (rules : List ValidationRule) (kind : String)
    (f : GoValue → Option GoValue) : Option GoValue :=
  lastProjectedFrom rules kind f none

/-- emailOnlyRule is a bare email validation rule (the rule attached by
AddEmailField without its message). -/
def emailOnlyRule : ValidationRule := { type := "email" }

/-- digitsPatternRule is a pattern rule requiring an all-digit string. -/
def digitsPatternRule : ValidationRule :=
  { type := "pattern", value := .VString "^\\d+$" }

/-- textareaPlainField is a textarea field with no extra config. -/
def textareaPlainField : Field := { name := "bio", type := .textarea, label := "Bio" }

/-- textareaRowsField is the same textarea field with an extra-config entry
colliding with the projector-derived rows option. -/
def textareaRowsField : Field :=
  { textareaPlainField with config := [("rows", GoValue.VInt 10)] }

/-- intMinLengthField is a text field carrying a minLength rule whose
parameter is the Go int 5 (not a float64). -/
def intMinLengthField : Field :=
  { name := "code", type := .text, label := "Code",
    validation := [{ type := "minLength", value := .VInt 5 }] }

/-- orderedRulesField is the field of the rule-order scenario: validations
minLength(5) then pattern matching only digit strings. -/
def orderedRulesField : Field :=
  { name := "num", type := .text, label := "Num",
    validation := [{ type := "minLength", value := .VInt 5 }, digitsPatternRule] }

/-- requiredRuleField is a required field carrying a rule that fails on
short strings. -/
def requiredRuleField : Field :=
  { name := "x", required := true,
    validation := [{ type := "minLength", value := .VInt 5 }] }

/-- optionalRuleField is the same field with required off. -/
def optionalRuleField : Field := { requiredRuleField with required := false }

/-- userEmailMember is the untagged string struct member named UserEmail. -/
def userEmailMember : StructField := { name := "UserEmail" }

/-- hiddenField is a hidden, required field used in the sample form. -/
def hiddenField : Field :=
  { name := "secret", type := .hidden, label := "", required := true }

/-- hiddenSampleForm is a form mixing required, hidden-required and optional
fields. -/
def hiddenSampleForm : Form :=
  { name := "sample", title := "Sample",
    fields :=
      [{ name := "a", type := .text, label := "A", required := true },
       hiddenField,
       { name := "b", type := .email, label := "B" }] }

/-- dupFormOne and dupFormTwo share a registration name. -/
def dupFormOne : Form := { name := "dup", title := "One" }

/-- dupFormTwo is the second form registered under the shared name. -/
def dupFormTwo : Form := { name := "dup", title := "Two" }

/-- unknownKindRule is a rule with a kind neither evaluator knows. -/
def unknownKindRule : ValidationRule := { type := "customRule" }


/-- constraintTable pairs each projectable rule kind with its schema
constraint keyword and its parameter projection, following the amended
specification sentence for the validation-rule step of generateFieldSchema. -/
def constraintTable : List (String × String × (GoValue → Option GoValue)) :=
  [("min", "minimum", minmaxProjection),
   ("max", "maximum", minmaxProjection),
   ("minLength", "minLength", lengthProjection),
   ("maxLength", "maxLength", lengthProjection),
   ("pattern", "pattern", patternProjection)]

/-- requiredNames lists the names of the required non-hidden fields, in form
order; GenerateJSONSchema's required list is exactly this (see
buildSchema_required). -/
def requiredNames : List Field → List String
  | [] => []
  | f :: rest =>
      if f.type ≠ FieldType.hidden ∧ f.required = true then f.name :: requiredNames rest
      else requiredNames rest

/-! Lemmas about the Go-map model. -/

theorem mapKeys_nil {α : Type} : mapKeys ([] : List (String × α)) = [] := rfl

theorem mapKeys_cons {α : Type} (a : String) (b : α) (m : List (String × α)) :
    mapKeys ((a, b) :: m) = a :: mapKeys m := rfl

theorem mapGet_mapSet {α : Type} (m : List (String × α)) (k a : String) (v : α) :
    mapGet (mapSet m k v) a = if k = a then some v else mapGet m a := by
  induction m with
  | nil => by_cases h : k = a <;> simp [mapSet, mapGet, h]
  | cons p rest ih =>
      obtain ⟨k2, v2⟩ := p
      by_cases h1 : k2 = k
      · subst h1
        by_cases h2 : k2 = a <;> simp [mapSet, mapGet, h2]
      · by_cases h2 : k2 = a
        · subst h2
          have h3 : ¬ k = k2 := fun he => h1 he.symm
          simp [mapSet, mapGet, h1, h3]
        · simp [mapSet, mapGet, h1, h2, ih]

theorem mapKeys_mapSet_of_mem {α : Type} (m : List (String × α)) (k : String) (v : α)
    (h : k ∈ mapKeys m) : mapKeys (mapSet m k v) = mapKeys m := by
  induction m with
  | nil => simp [mapKeys_nil] at h
  | cons p rest ih =>
      obtain ⟨k2, v2⟩ := p
      by_cases h1 : k2 = k
      · subst h1; simp [mapSet, mapKeys_cons]
      · have h2 : k ∈ mapKeys rest := by
          rw [mapKeys_cons] at h
          rcases List.mem_cons.mp h with h3 | h3
          · exact absurd h3.symm h1
          · exact h3
        simp [mapSet, mapKeys_cons, h1, ih h2]

theorem mapKeys_mapSet_of_not_mem {α : Type} (m : List (String × α)) (k : String) (v : α)
    (h : k ∉ mapKeys m) : mapKeys (mapSet m k v) = mapKeys m ++ [k] := by
  induction m with
  | nil => simp [mapSet, mapKeys_nil, mapKeys_cons]
  | cons p rest ih =>
      obtain ⟨k2, v2⟩ := p
      rw [mapKeys_cons] at h
      have h1 : k2 ≠ k := fun he => h (he ▸ List.mem_cons_self k2 (mapKeys rest))
      have h2 : k ∉ mapKeys rest := fun hm => h (List.mem_cons_of_mem k2 hm)
      simp [mapSet, mapKeys_cons, h1, ih h2]

theorem nodup_mapKeys_mapSet {α : Type} (m : List (String × α)) (k : String) (v : α)
    (h : (mapKeys m).Nodup) : (mapKeys (mapSet m k v)).Nodup := by
  by_cases hm : k ∈ mapKeys m
  · rw [mapKeys_mapSet_of_mem m k v hm]; exact h
  · rw [mapKeys_mapSet_of_not_mem m k v hm]
    simp [List.nodup_append, h, hm]

theorem mapGet_of_mem_nodup {α : Type} (m : List (String × α)) (k : String) (v : α)
    (hn : (mapKeys m).Nodup) (hm : (k, v) ∈ m) : mapGet m k = some v := by
  induction m with
  | nil => cases hm
  | cons p rest ih =>
      obtain ⟨k2, v2⟩ := p
      rw [mapKeys_cons, List.nodup_cons] at hn
      rcases List.mem_cons.mp hm with h | h
      · cases h; simp [mapGet]
      · have hk2 : k2 ≠ k := by
          intro he
          exact hn.1 (he ▸ (List.mem_map.mpr ⟨(k, v), h, rfl⟩))
        simp [mapGet, hk2, ih hn.2 h]


theorem mapGet_mergeConfig_of_not_mem (cfg m : GoMap) (k : String)
    (h : k ∉ mapKeys cfg) : mapGet (SchemaPkg.mergeConfig m cfg) k = mapGet m k := by
  induction cfg generalizing m with
  | nil => rfl
  | cons p rest ih =>
      obtain ⟨k1, v1⟩ := p
      rw [mapKeys_cons] at h
      have h1 : k1 ≠ k := fun he => h (he ▸ List.mem_cons_self k1 (mapKeys rest))
      have h2 : k ∉ mapKeys rest := fun hm => h (List.mem_cons_of_mem k1 hm)
      show mapGet (SchemaPkg.mergeConfig (mapSet m k1 v1) rest) k = mapGet m k
      rw [ih (mapSet m k1 v1) h2, mapGet_mapSet, if_neg h1]

theorem mapGet_mergeConfig_of_mem (cfg m : GoMap) (k : String) (v : GoValue)
    (hn : (mapKeys cfg).Nodup) (hm : (k, v) ∈ cfg) :
    mapGet (SchemaPkg.mergeConfig m cfg) k = some v := by
  induction cfg generalizing m with
  | nil => cases hm
  | cons p rest ih =>
      obtain ⟨k1, v1⟩ := p
      rw [mapKeys_cons, List.nodup_cons] at hn
      rcases List.mem_cons.mp hm with h | h
      · cases h
        show mapGet (SchemaPkg.mergeConfig (mapSet m k v) rest) k = some v
        have hk : k ∉ mapKeys rest := hn.1
        rw [mapGet_mergeConfig_of_not_mem rest (mapSet m k v) k hk, mapGet_mapSet, if_pos rfl]
      · show mapGet (SchemaPkg.mergeConfig (mapSet m k1 v1) rest) k = some v
        exact ih (mapSet m k1 v1) hn.2 h

theorem applyRules_ok_iff (value : GoValue) (rules : List ValidationRule) :
    FormPkg.applyRules value rules = .ok () ↔
      ∀ r ∈ rules, FormPkg.validateRule value r = .ok () := by
  induction rules with
  | nil => simp [FormPkg.applyRules]
  | cons r rs ih =>
      constructor
      · intro h r0 hr0
        rcases List.mem_cons.mp hr0 with h0 | h0
        · subst h0
          by_contra hne
          rcases hx : FormPkg.validateRule value r0 with e | u
          · rw [FormPkg.applyRules, hx] at h; cases h
          · exact hne (by rw [hx])
        · have : FormPkg.applyRules value rs = .ok () := by
            rcases hx : FormPkg.validateRule value r with e | u
            · rw [FormPkg.applyRules, hx] at h; cases h
            · rw [FormPkg.applyRules, hx] at h; exact h
          exact (ih.mp this) r0 h0
      · intro h
        have h1 : FormPkg.validateRule value r = .ok () := h r (List.mem_cons_self r rs)
        rw [FormPkg.applyRules, h1]
        exact ih.mpr (fun r0 hr0 => h r0 (List.mem_cons_of_mem r hr0))

theorem applyRules_first_error (value : GoValue) (rs1 : List ValidationRule)
    (r : ValidationRule) (rs2 : List ValidationRule) (e : VErr)
    (hok : ∀ r0 ∈ rs1, FormPkg.validateRule value r0 = .ok ())
    (herr : FormPkg.validateRule value r = .error e) :
    FormPkg.applyRules value (rs1 ++ r :: rs2) = .error e := by
  induction rs1 with
  | nil => simp [FormPkg.applyRules, herr]
  | cons r0 rest ih =>
      have h0 : FormPkg.validateRule value r0 = .ok () := hok r0 (List.mem_cons_self r0 rest)
      rw [List.cons_append, FormPkg.applyRules, h0]
      exact ih (fun r1 hr1 => hok r1 (List.mem_cons_of_mem r0 hr1))


theorem mapGet_applyConstraint (m : GoMap) (r : ValidationRule)
    (kind key : String) (f : GoValue → Option GoValue)
    (hmem : (kind, key, f) ∈ constraintTable) :
    mapGet (SchemaPkg.applyConstraint m r) key =
      if r.type = kind then
        match f r.value with
        | some g => some g
        | none => mapGet m key
      else mapGet m key := by
  simp only [constraintTable, List.mem_cons, List.not_mem_nil, or_false,
    Prod.mk.injEq] at hmem
  rcases hmem with ⟨rfl, rfl, rfl⟩ | ⟨rfl, rfl, rfl⟩ | ⟨rfl, rfl, rfl⟩ |
    ⟨rfl, rfl, rfl⟩ | ⟨rfl, rfl, rfl⟩ <;>
    (unfold SchemaPkg.applyConstraint
     split <;> rename_i hty <;>
       cases hv : r.value <;>
       simp_all [minmaxProjection, lengthProjection, patternProjection, mapGet_mapSet])


theorem mapGet_foldConstraints (rules : List ValidationRule) (m : GoMap)
    (kind key : String) (f : GoValue → Option GoValue)
    (hmem : (kind, key, f) ∈ constraintTable) :
    mapGet (rules.foldl SchemaPkg.applyConstraint m) key =
      lastProjectedFrom rules kind f (mapGet m key) := by
  induction rules generalizing m with
  | nil => rfl
  | cons r rest ih =>
      rw [List.foldl_cons]
      rw [ih (SchemaPkg.applyConstraint m r)]
      rw [mapGet_applyConstraint m r kind key f hmem]
      rfl

theorem mapGet_fieldSchemaBase (field : Field) (key : String)
    (h1 : key ≠ "title") (h2 : key ≠ "description") (h3 : key ≠ "type")
    (h4 : key ≠ "format") (h5 : key ≠ "examples") (h6 : key ≠ "enum")
    (h7 : key ≠ "items") (h8 : key ≠ "uniqueItems") (h9 : key ≠ "properties") :
    mapGet (SchemaPkg.fieldSchemaBase field) key = none := by
  have e1 := Ne.symm h1
  have e2 := Ne.symm h2
  have e3 := Ne.symm h3
  have e4 := Ne.symm h4
  have e5 := Ne.symm h5
  have e6 := Ne.symm h6
  have e7 := Ne.symm h7
  have e8 := Ne.symm h8
  have e9 := Ne.symm h9
  unfold SchemaPkg.fieldSchemaBase
  cases field.type <;>
    (try split_ifs) <;>
    (try cases field.tableConfig) <;>
    simp_all [SchemaPkg.generateTableSchema, mapGet_mapSet, mapGet]

theorem mapGet_preConstraints (field : Field) (key : String)
    (h1 : key ≠ "title") (h2 : key ≠ "description") (h3 : key ≠ "type")
    (h4 : key ≠ "format") (h5 : key ≠ "examples") (h6 : key ≠ "enum")
    (h7 : key ≠ "items") (h8 : key ≠ "uniqueItems") (h9 : key ≠ "properties")
    (h10 : key ≠ "default") :
    mapGet (SchemaPkg.withDefaultValue (SchemaPkg.fieldSchemaBase field) field) key = none := by
  have hb := mapGet_fieldSchemaBase field key h1 h2 h3 h4 h5 h6 h7 h8 h9
  unfold SchemaPkg.withDefaultValue
  cases field.defaultValue <;> simp [mapGet_mapSet, Ne.symm h10, hb]


theorem mapGet_uiPreConfig_options (field : Field) :
    mapGet (SchemaPkg.uiPreConfig field) "ui:options" =
      mapGet (SchemaPkg.widgetPart field) "ui:options" := by
  unfold SchemaPkg.uiPreConfig
  split_ifs <;> simp [mapGet_mapSet]

theorem widgetPart_options_shape (field : Field) :
    mapGet (SchemaPkg.widgetPart field) "ui:options" = none ∨
      ∃ mm, mapGet (SchemaPkg.widgetPart field) "ui:options" = some (GoValue.VMap mm) := by
  unfold SchemaPkg.widgetPart
  cases field.type <;>
    (try split_ifs) <;>
    (try cases field.tableConfig) <;>
    simp [mapGet_mapSet, mapGet]


theorem buildSchema_required (fs : List Field) (s : SchemaPkg.JSONSchema) :
    (SchemaPkg.buildSchema fs s).required = s.required ++ requiredNames fs := by
  induction fs generalizing s with
  | nil => simp [SchemaPkg.buildSchema, requiredNames]
  | cons f rest ih =>
      by_cases hh : f.type = FieldType.hidden
      · simp [SchemaPkg.buildSchema, hh, ih, requiredNames]
      · by_cases hr : f.required = true
        · simp [SchemaPkg.buildSchema, hh, hr, ih, requiredNames]
        · simp [SchemaPkg.buildSchema, hh, hr, ih, requiredNames]

theorem mem_requiredNames (fs : List Field) (n : String) :
    n ∈ requiredNames fs ↔
      ∃ f, f ∈ fs ∧ f.name = n ∧ f.required = true ∧ f.type ≠ FieldType.hidden := by
  induction fs with
  | nil => simp [requiredNames]
  | cons f rest ih =>
      by_cases hh : f.type = FieldType.hidden
      · simp only [requiredNames, hh]
        rw [if_neg (by simp [hh])]
        rw [ih]
        constructor
        · rintro ⟨g, hg, hn, hr, ht⟩
          exact ⟨g, List.mem_cons_of_mem f hg, hn, hr, ht⟩
        · rintro ⟨g, hg, hn, hr, ht⟩
          rcases List.mem_cons.mp hg with h | h
          · subst h; exact absurd hh ht
          · exact ⟨g, h, hn, hr, ht⟩
      · by_cases hr : f.required = true
        · simp only [requiredNames]
          rw [if_pos ⟨hh, hr⟩, List.mem_cons, ih]
          constructor
          · rintro (rfl | ⟨g, hg, hn, hrg, htg⟩)
            · exact ⟨f, List.mem_cons_self f rest, rfl, hr, hh⟩
            · exact ⟨g, List.mem_cons_of_mem f hg, hn, hrg, htg⟩
          · rintro ⟨g, hg, hn, hrg, htg⟩
            rcases List.mem_cons.mp hg with h | h
            · subst h; exact Or.inl hn.symm
            · exact Or.inr ⟨g, h, hn, hrg, htg⟩
        · simp only [requiredNames]
          rw [if_neg (by rintro ⟨-, h⟩; exact hr h), ih]
          constructor
          · rintro ⟨g, hg, hn, hrg, htg⟩
            exact ⟨g, List.mem_cons_of_mem f hg, hn, hrg, htg⟩
          · rintro ⟨g, hg, hn, hrg, htg⟩
            rcases List.mem_cons.mp hg with h | h
            · subst h; exact absurd hrg hr
            · exact ⟨g, h, hn, hrg, htg⟩

theorem buildSchema_properties_of_absent (fs : List Field) (s : SchemaPkg.JSONSchema)
    (n : String) (h : ∀ f, f ∈ fs → f.type ≠ FieldType.hidden → f.name ≠ n) :
    mapGet (SchemaPkg.buildSchema fs s).properties n = mapGet s.properties n := by
  induction fs generalizing s with
  | nil => rfl
  | cons f rest ih =>
      by_cases hh : f.type = FieldType.hidden
      · simp only [SchemaPkg.buildSchema, if_pos hh]
        exact ih s (fun g hg => h g (List.mem_cons_of_mem f hg))
      · simp only [SchemaPkg.buildSchema, if_neg hh]
        rw [ih _ (fun g hg => h g (List.mem_cons_of_mem f hg))]
        simp only [mapGet_mapSet, if_neg (h f (List.mem_cons_self f rest) hh)]


/-- C1: the claim states that the standalone rule evaluator
(form.validateRule) and the request-payload rule evaluator
(router.validateRule) produce the same accept/reject outcome for every value
and rule. The code refutes it: the router evaluator has no pattern case and
its email check is a weaker substring test, so the two evaluators disagree
on the email value "@." and on any failing pattern rule. -/
theorem C1_validateRule_divergence :
    FormPkg.validateRule (GoValue.VString "@.") emailOnlyRule = Except.error VErr.emailDefault ∧
    RouterPkg.validateRule (GoValue.VString "@.") emailOnlyRule = Except.ok () ∧
    FormPkg.validateRule (GoValue.VString "ab") digitsPatternRule = Except.error VErr.patternDefault ∧
    RouterPkg.validateRule (GoValue.VString "ab") digitsPatternRule = Except.ok () :=
  ⟨rfl, rfl, rfl, rfl⟩

/-- C2 counterexample: the claim states that a config key never overwrites a
projector-derived option. For a textarea field the projector derives
rows = 4, yet with config rows = 10 the resulting options map holds 10: the
config value, not the projector-derived one, remains. -/
theorem C2_counterexample_config_overwrites_derived :
    uiOptionsGet (SchemaPkg.generateFieldUISchema textareaPlainField) "rows" =
      some (GoValue.VInt 4) ∧
    uiOptionsGet (SchemaPkg.generateFieldUISchema textareaRowsField) "rows" =
      some (GoValue.VInt 10) :=
  ⟨rfl, rfl⟩

/-- C2 as amended: every config key of a field with a non-empty extra-config
map is added to the field hint options map, and on a key collision the
config value is the one that remains (config wins over the
projector-derived option). -/
theorem C2_config_keys_merged_config_wins (field : Field) (k : String) (v : GoValue)
    (hn : (mapKeys field.config).Nodup) (hm : (k, v) ∈ field.config) :
    uiOptionsGet (SchemaPkg.generateFieldUISchema field) k = some v := by
  have hcfg : ¬ field.config.isEmpty = true := by
    cases hc : field.config with
    | nil => rw [hc] at hm; cases hm
    | cons a l => simp
  unfold SchemaPkg.generateFieldUISchema SchemaPkg.applyConfig
  rw [if_neg hcfg]
  rcases widgetPart_options_shape field with hs | ⟨mm, hs⟩
  · rw [mapGet_uiPreConfig_options field] at *
    rw [hs]
    unfold uiOptionsGet
    rw [mapGet_mapSet, if_pos rfl]
    exact mapGet_of_mem_nodup field.config k v hn hm
  · rw [mapGet_uiPreConfig_options field] at *
    rw [hs]
    unfold uiOptionsGet
    rw [mapGet_mapSet, if_pos rfl]
    exact mapGet_mergeConfig_of_mem field.config mm k v hn hm

/-- C2 witness: the amended theorem applied to the textarea field whose
config collides with the derived rows option. -/
theorem C2_witness :
    (mapKeys textareaRowsField.config).Nodup ∧
    uiOptionsGet (SchemaPkg.generateFieldUISchema textareaRowsField) "rows" =
      some (GoValue.VInt 10) :=
  ⟨by decide,
   C2_config_keys_merged_config_wins textareaRowsField "rows" (GoValue.VInt 10)
     (by decide) (List.Mem.head _)⟩

/-- C3 counterexample: the claim states that every min/max/minLength/
maxLength/pattern rule puts its parameter on the matching constraint
keyword. A minLength rule whose parameter is the Go int 5 (not a float64)
is silently not projected: the generated field schema has no minLength
keyword. -/
theorem C3_counterexample_int_param_not_projected :
    mapGet (SchemaPkg.generateFieldSchema intMinLengthField) "minLength" = none :=
  rfl

/-- C3 as amended: a constraint keyword appears exactly when some rule of
the matching kind carries a parameter of the expected dynamic type (float64
for min/max and the length bounds, the lengths truncated to int; string for
pattern), and it carries the parameter of the last such rule; rule kinds
with no schema equivalent (such as email) and rules with parameters of any
other type add no constraint keyword. -/
theorem C3_constraint_projection (field : Field) :
    mapGet (SchemaPkg.generateFieldSchema field) "minimum" =
      lastProjected field.validation "min" minmaxProjection ∧
    mapGet (SchemaPkg.generateFieldSchema field) "maximum" =
      lastProjected field.validation "max" minmaxProjection ∧
    mapGet (SchemaPkg.generateFieldSchema field) "minLength" =
      lastProjected field.validation "minLength" lengthProjection ∧
    mapGet (SchemaPkg.generateFieldSchema field) "maxLength" =
      lastProjected field.validation "maxLength" lengthProjection ∧
    mapGet (SchemaPkg.generateFieldSchema field) "pattern" =
      lastProjected field.validation "pattern" patternProjection := by
  refine ⟨?_, ?_, ?_, ?_, ?_⟩ <;>
    (show mapGet (field.validation.foldl SchemaPkg.applyConstraint
        (SchemaPkg.withDefaultValue (SchemaPkg.fieldSchemaBase field) field)) _ = _
     rw [mapGet_foldConstraints _ _ _ _ _ (by first
          | exact List.Mem.head _
          | exact List.Mem.tail _ (List.Mem.head _)
          | exact List.Mem.tail _ (List.Mem.tail _ (List.Mem.head _))
          | exact List.Mem.tail _ (List.Mem.tail _ (List.Mem.tail _ (List.Mem.head _)))
          | exact List.Mem.tail _ (List.Mem.tail _ (List.Mem.tail _ (List.Mem.tail _ (List.Mem.head _)))))]
     rw [mapGet_preConstraints field _ (by decide) (by decide) (by decide) (by decide)
       (by decide) (by decide) (by decide) (by decide) (by decide) (by decide)]
     rfl)


/-- C4: the presentation schema required list is set-equal to the names of
the required non-hidden fields, and (for a form with unique field names, the
documented invariant) a hidden field name appears neither in the schema
properties nor in the required list nor in the UI schema ui:order array. -/
theorem C4_required_set_and_hidden_exclusion (form : Form)
    (hN : (form.fields.map Field.name).Nodup) :
    (∀ n, n ∈ (SchemaPkg.GenerateJSONSchema form).required ↔
       ∃ f, f ∈ form.fields ∧ f.name = n ∧ f.required = true ∧ f.type ≠ FieldType.hidden) ∧
    (∀ f, f ∈ form.fields → f.type = FieldType.hidden →
       mapGet (SchemaPkg.GenerateJSONSchema form).properties f.name = none ∧
       f.name ∉ (SchemaPkg.GenerateJSONSchema form).required ∧
       f.name ∉ SchemaPkg.uiOrderList form) := by
  have hreq : (SchemaPkg.GenerateJSONSchema form).required = requiredNames form.fields := by
    show (SchemaPkg.buildSchema form.fields _).required = _
    rw [buildSchema_required]
    rfl
  have hinj := List.inj_on_of_nodup_map hN
  constructor
  · intro n
    rw [hreq, mem_requiredNames]
  · intro f hf hhid
    have hne : ∀ g, g ∈ form.fields → g.type ≠ FieldType.hidden → g.name ≠ f.name := by
      intro g hg hgne he
      have : g = f := hinj hg hf he
      rw [this] at hgne
      exact hgne hhid
    refine ⟨?_, ?_, ?_⟩
    · show mapGet (SchemaPkg.buildSchema form.fields _).properties f.name = none
      rw [buildSchema_properties_of_absent form.fields _ f.name hne]
      rfl
    · rw [hreq, mem_requiredNames]
      rintro ⟨g, hg, hn, hr, ht⟩
      exact hne g hg ht hn
    · unfold SchemaPkg.uiOrderList
      intro hmem
      rcases List.mem_map.mp hmem with ⟨g, hg, hn⟩
      have hgf := List.mem_filter.mp hg
      exact hne g hgf.1 (by simpa using hgf.2) hn

/-- C4 witness: the theorem applied to a sample form with a required hidden
field named secret. -/
theorem C4_witness :
    (hiddenSampleForm.fields.map Field.name).Nodup ∧
    mapGet (SchemaPkg.GenerateJSONSchema hiddenSampleForm).properties "secret" = none ∧
    "secret" ∉ (SchemaPkg.GenerateJSONSchema hiddenSampleForm).required ∧
    "secret" ∉ SchemaPkg.uiOrderList hiddenSampleForm := by
  have hN : (hiddenSampleForm.fields.map Field.name).Nodup := by decide
  have hf : hiddenField ∈ hiddenSampleForm.fields := List.Mem.tail _ (List.Mem.head _)
  have h := (C4_required_set_and_hidden_exclusion hiddenSampleForm hN).2 hiddenField hf rfl
  exact ⟨hN, h.1, h.2.1, h.2.2⟩

/-- C5: an empty value (null, all-whitespace string or empty list) fails
with the missing-required-field error when the field is required, and
passes immediately when it is not, whatever rules the field carries. -/
theorem C5_empty_value_short_circuit (field : Field) (value : GoValue)
    (h : isEmpty value = true) :
    (field.required = true →
       FormPkg.ValidateField field value = Except.error VErr.requiredField) ∧
    (field.required = false → FormPkg.ValidateField field value = Except.ok ()) := by
  constructor <;> intro hr <;> simp [FormPkg.ValidateField, h, hr]

/-- C5 witness: an all-whitespace string against a required and an optional
field, both carrying a rule that would fail on it. -/
theorem C5_witness :
    isEmpty (GoValue.VString "   ") = true ∧
    FormPkg.ValidateField requiredRuleField (GoValue.VString "   ") =
      Except.error VErr.requiredField ∧
    FormPkg.ValidateField optionalRuleField (GoValue.VString "   ") = Except.ok () :=
  ⟨rfl,
   (C5_empty_value_short_circuit requiredRuleField (GoValue.VString "   ") rfl).1 rfl,
   (C5_empty_value_short_circuit optionalRuleField (GoValue.VString "   ") rfl).2 rfl⟩

/-- C6: for a non-empty value the rules run in declared order; validation
succeeds exactly when every rule passes, and when a rule fails while all
rules before it pass, the overall result is that rule's error. -/
theorem C6_rules_in_declared_order (field : Field) (value : GoValue)
    (h : isEmpty value = false) :
    (FormPkg.ValidateField field value = Except.ok () ↔
       ∀ r ∈ field.validation, FormPkg.validateRule value r = Except.ok ()) ∧
    (∀ rs1 r rs2 e, field.validation = rs1 ++ r :: rs2 →
       (∀ r0 ∈ rs1, FormPkg.validateRule value r0 = Except.ok ()) →
       FormPkg.validateRule value r = Except.error e →
       FormPkg.ValidateField field value = Except.error e) := by
  have hv : FormPkg.ValidateField field value = FormPkg.applyRules value field.validation := by
    unfold FormPkg.ValidateField
    simp [h]
  constructor
  · rw [hv]
    exact applyRules_ok_iff value field.validation
  · intro rs1 r rs2 e hsplit hok herr
    rw [hv, hsplit]
    exact applyRules_first_error value rs1 r rs2 e hok herr

/-- C6 witness: the scenario from the claim: validations minLength(5) then
pattern over digits, value "ab": the reported failure is the minLength
default, not the pattern failure. -/
theorem C6_witness :
    isEmpty (GoValue.VString "ab") = false ∧
    FormPkg.ValidateField orderedRulesField (GoValue.VString "ab") =
      Except.error (VErr.minLengthDefault 5) := by
  refine ⟨rfl, ?_⟩
  exact (C6_rules_in_declared_order orderedRulesField (GoValue.VString "ab") rfl).2
    [] { type := "minLength", value := .VInt 5 } [digitsPatternRule]
    (VErr.minLengthDefault 5) rfl (fun r0 hr0 => absurd hr0 (List.not_mem_nil r0)) rfl

/-- C7: an exported string struct member whose name contains the substring
email (case-insensitively) and that carries no form/label/type/required
tags maps to a Field named by the lower-cased member name, of email type,
carrying the default email validation rule. -/
theorem C7_untagged_email_member (sf : StructField)
    (hform : tagGet sf.tags "form" = "")
    (hlabel : tagGet sf.tags "label" = "")
    (htype : tagGet sf.tags "type" = "")
    (hreq : tagGet sf.tags "required" = "")
    (hkind : sf.kind = GoKind.kString)
    (hemail : strContains (strToLower sf.name) "email" = true) :
    (FormPkg.createFieldFromStructField sf).name = strToLower sf.name ∧
    (FormPkg.createFieldFromStructField sf).type = FieldType.email ∧
    (FormPkg.createFieldFromStructField sf).validation = [FormPkg.defaultEmailRule] := by
  have hty : FormPkg.getFieldType sf = FieldType.email := by
    unfold FormPkg.getFieldType
    simp [htype, hkind, hemail]
  have hname : FormPkg.getFieldName sf = strToLower sf.name := by
    unfold FormPkg.getFieldName
    simp [hform]
  unfold FormPkg.createFieldFromStructField
  simp [hname, hty]

/-- C7 witness: the member UserEmail with no tags resolves to name
useremail, type email, with the default email rule. -/
theorem C7_witness :
    tagGet userEmailMember.tags "form" = "" ∧
    userEmailMember.kind = GoKind.kString ∧
    strContains (strToLower userEmailMember.name) "email" = true ∧
    (FormPkg.createFieldFromStructField userEmailMember).name = "useremail" ∧
    (FormPkg.createFieldFromStructField userEmailMember).type = FieldType.email ∧
    (FormPkg.createFieldFromStructField userEmailMember).validation =
      [FormPkg.defaultEmailRule] := by
  have h := C7_untagged_email_member userEmailMember rfl rfl rfl rfl rfl (by decide)
  refine ⟨rfl, rfl, by decide, ?_, h.2.1, h.2.2⟩
  rw [h.1]
  rfl


/-- C8: registering two forms under one name keeps only the second: the
lookup under that name yields the second form, the key set is unchanged by
the duplicate registration (so the forms listing counts each distinct name
exactly once, its keys staying duplicate-free), and the listing length is
unchanged. -/
theorem C8_duplicate_registration_last_wins (r : Router) (f1 f2 : Form)
    (hn : (mapKeys r.forms).Nodup) (hname : f1.name = f2.name) :
    mapGet ((r.RegisterForm f1).RegisterForm f2).forms f1.name = some f2 ∧
    (mapKeys ((r.RegisterForm f1).RegisterForm f2).forms).Nodup ∧
    mapKeys ((r.RegisterForm f1).RegisterForm f2).forms =
      mapKeys (r.RegisterForm f1).forms ∧
    ((r.RegisterForm f1).RegisterForm f2).handleFormsList.length =
      (r.RegisterForm f1).handleFormsList.length := by
  have hforms : ((r.RegisterForm f1).RegisterForm f2).forms =
      mapSet (mapSet r.forms f1.name f1) f2.name f2 := rfl
  have hmem : f2.name ∈ mapKeys (mapSet r.forms f1.name f1) := by
    rw [← hname]
    by_cases hm : f1.name ∈ mapKeys r.forms
    · rw [mapKeys_mapSet_of_mem _ _ _ hm]
      exact hm
    · rw [mapKeys_mapSet_of_not_mem _ _ _ hm]
      simp
  have hkeys : mapKeys ((r.RegisterForm f1).RegisterForm f2).forms =
      mapKeys (r.RegisterForm f1).forms := by
    rw [hforms]
    exact mapKeys_mapSet_of_mem _ _ _ hmem
  refine ⟨?_, ?_, hkeys, ?_⟩
  · rw [hforms, hname, mapGet_mapSet, if_pos rfl]
  · rw [hforms]
    exact nodup_mapKeys_mapSet _ _ _ (nodup_mapKeys_mapSet _ _ _ hn)
  · have := congrArg List.length hkeys
    simpa [Router.handleFormsList, mapKeys] using this

/-- C8 witness: two forms named dup on an empty registry. -/
theorem C8_witness :
    mapGet ((({} : Router).RegisterForm dupFormOne).RegisterForm dupFormTwo).forms "dup" =
      some dupFormTwo ∧
    ((({} : Router).RegisterForm dupFormOne).RegisterForm dupFormTwo).handleFormsList.length =
      ((({} : Router)).RegisterForm dupFormOne).handleFormsList.length := by
  have h := C8_duplicate_registration_last_wins {} dupFormOne dupFormTwo (by decide) rfl
  exact ⟨h.1, h.2.2.2⟩

/-- C9: for every admin state, so in particular for every behaviour of the
navigation storage SaveRoute collaborator including one that returns an
error, RegisterForm and RegisterPage register in the router exactly as the
router registration does, and return the Admin with no error channel: a
persistence failure never prevents, undoes or alters the registration. -/
theorem C9_storage_failure_never_blocks_registration (a : Admin) (form : Form) (page : Page) :
    (a.RegisterForm form).router = a.router.RegisterForm form ∧
    mapGet (a.RegisterForm form).router.forms form.name = some form ∧
    (a.RegisterPage page).router = a.router.RegisterPage page ∧
    mapGet (a.RegisterPage page).router.pages page.name = some page := by
  have h1 : (a.RegisterForm form).router = a.router.RegisterForm form := by
    unfold Admin.RegisterForm
    cases hs : a.storage <;> simp [hs]
  have h2 : (a.RegisterPage page).router = a.router.RegisterPage page := by
    unfold Admin.RegisterPage
    cases hs : a.storage <;> simp [hs]
  refine ⟨h1, ?_, h2, ?_⟩
  · rw [h1]
    show mapGet (mapSet a.router.forms form.name form) form.name = some form
    rw [mapGet_mapSet, if_pos rfl]
  · rw [h2]
    show mapGet (mapSet a.router.pages page.name page) page.name = some page
    rw [mapGet_mapSet, if_pos rfl]

/-- C10: a rule whose kind is none of email, min, max, minLength, maxLength
or pattern is accepted by both rule evaluators: an unknown or misspelled
kind is silently ignored. -/
theorem C10_unknown_rule_kinds_accepted (value : GoValue) (rule : ValidationRule)
    (hne : isEmpty value = false)
    (h1 : rule.type ≠ "email") (h2 : rule.type ≠ "min") (h3 : rule.type ≠ "max")
    (h4 : rule.type ≠ "minLength") (h5 : rule.type ≠ "maxLength")
    (h6 : rule.type ≠ "pattern") :
    FormPkg.validateRule value rule = Except.ok () ∧
    RouterPkg.validateRule value rule = Except.ok () := by
  constructor
  · unfold FormPkg.validateRule
    split <;> simp_all
  · unfold RouterPkg.validateRule
    split <;> simp_all

/-- C10 witness: a rule of kind customRule on a non-empty string value. -/
theorem C10_witness :
    isEmpty (GoValue.VString "x") = false ∧
    unknownKindRule.type ≠ "pattern" ∧
    FormPkg.validateRule (GoValue.VString "x") unknownKindRule = Except.ok () ∧
    RouterPkg.validateRule (GoValue.VString "x") unknownKindRule = Except.ok () := by
  have h := C10_unknown_rule_kinds_accepted (GoValue.VString "x") unknownKindRule rfl
    (by decide) (by decide) (by decide) (by decide) (by decide) (by decide)
  exact ⟨rfl, by decide, h.1, h.2⟩


end Formist
